import Mathlib

/-!
Verification of the Photo Registry Service (`src/main.py`).

The service keeps an in-memory list `photos_db` of photo records and a
process-wide counter `photo_id_counter` (initialized to 1).  The HTTP
handlers `list_photos`, `get_photo`, `create_photo`, `update_photo` and
`delete_photo` are embedded below as pure functions over an explicit
registry state.  The nondeterministic clock (`datetime.utcnow().isoformat()`)
is passed in as an explicit `now : String` argument.  Python exceptions
(`HTTPException`) become `Except` values; the possibly-mutated database is
returned alongside, so that "no mutation on failure" is a theorem rather
than a modelling assumption.
-/

namespace PhotoBlog

/-- A stored photo record, as built by `create_photo` in `src/main.py`:
`{"id": ..., "title": ..., "description": ..., "url": ..., "tags": ...,
"created_at": ...}`. -/
structure Photo where
  id : Int
  title : String
  description : Option String
  url : String
  tags : List String
  created_at : String
deriving DecidableEq, Repr

/-- `HTTPException(status_code=..., detail=...)` as raised by the handlers. -/
structure HTTPException where
  status_code : Nat
  detail : String
deriving DecidableEq, Repr

/-- The 404 exception `HTTPException(status_code=404, detail=f"Photo with id
{photo_id} not found")` raised by `get_photo`, `update_photo`, `delete_photo`. -/
def notFoundExc (photo_id : Int) : HTTPException :=
  { status_code := 404, detail := "Photo with id " ++ toString photo_id ++ " not found" }

/-- The registry's shared mutable state: the list `photos_db` and the counter
`photo_id_counter` (`src/main.py` lines 17-19). -/
structure RegState where
  photos_db : List Photo
  photo_id_counter : Int
deriving DecidableEq, Repr

/-- Initial process state: `photos_db = []`, `photo_id_counter = 1`. -/
def initState : RegState := { photos_db := [], photo_id_counter := 1 }

/-- A request body for create/replace after pydantic validation of the
`Photo` model (`src/main.py` lines 22-26): `title: str`,
`description: Optional[str] = None`, `url: str`,
`tags: Optional[List[str]] = []`. -/
structure PhotoIn where
  title : String
  description : Option String
  url : String
  tags : Option (List String)
deriving DecidableEq, Repr

/-- Python's `photo.tags or []`: `None` and the empty list are falsy, so both
yield `[]`; a non-empty list is returned as-is. -/
def pyTagsOr (t : Option (List String)) : List String :=
  match t with
  | none => []
  | some xs => if xs.isEmpty then [] else xs

/-- `list_photos(tag)` (`src/main.py` lines 62-68): when `tag` is truthy
(present and non-empty) it returns the records whose `tags` contain `tag`;
otherwise it returns the whole database. -/
def list_photos (tag : Option String) (db : List Photo) : List Photo :=
  match tag with
  | none => db
  | some t => if t = "" then db else db.filter (fun p => p.tags.contains t)

/-- `get_photo(photo_id)` (`src/main.py` lines 71-77): returns the first
record whose `id` matches, else raises 404. -/
def get_photo (photo_id : Int) (db : List Photo) : Except HTTPException Photo :=
  match db with
  | [] => .error (notFoundExc photo_id)
  | p :: rest => if p.id = photo_id then .ok p else get_photo photo_id rest

/-- `create_photo(photo)` (`src/main.py` lines 80-97): builds the new record
from the counter, the validated body, and the clock; appends it to
`photos_db`; increments the counter; returns the record. -/
def create_photo (photo : PhotoIn) (now : String) (st : RegState) : Photo × RegState :=
  let new_photo : Photo :=
    { id := st.photo_id_counter
      title := photo.title
      description := photo.description
      url := photo.url
      tags := pyTagsOr photo.tags
      created_at := now }
  (new_photo,
   { photos_db := st.photos_db ++ [new_photo]
     photo_id_counter := st.photo_id_counter + 1 })

/-- `update_photo(photo_id, photo)` (`src/main.py` lines 100-116): scans
`photos_db` in order; at the first record with matching `id`, overwrites it in
place with the new fields (keeping `id` and the existing `created_at`) and
returns it; raises 404 after the scan otherwise.  The possibly-mutated
database is returned alongside the result. -/
def update_photo (photo_id : Int) (photo : PhotoIn) :
    List Photo → Except HTTPException Photo × List Photo
  | [] => (.error (notFoundExc photo_id), [])
  | p :: rest =>
    if p.id = photo_id then
      let updated_photo : Photo :=
        { id := photo_id
          title := photo.title
          description := photo.description
          url := photo.url
          tags := pyTagsOr photo.tags
          created_at := p.created_at }
      (.ok updated_photo, updated_photo :: rest)
    else
      let r := update_photo photo_id photo rest
      (r.1, p :: r.2)

/-- The success body of `delete_photo`: `{"message": ..., "deleted_photo": ...}`. -/
structure DeleteResponse where
  message : String
  deleted_photo : Photo
deriving DecidableEq, Repr

/-- `delete_photo(photo_id)` (`src/main.py` lines 119-130): pops the first
record with matching `id` and returns the confirmation body, else raises 404.
The possibly-mutated database is returned alongside the result. -/
def delete_photo (photo_id : Int) :
    List Photo → Except HTTPException DeleteResponse × List Photo
  | [] => (.error (notFoundExc photo_id), [])
  | p :: rest =>
    if p.id = photo_id then
      ({ message := "Photo " ++ toString photo_id ++ " deleted successfully"
         deleted_photo := p } |> Except.ok, rest)
    else
      let r := delete_photo photo_id rest
      (r.1, p :: r.2)

/-! ### The validation layer

Request bodies arrive as JSON and are validated by pydantic against the
`Photo` model before any handler runs.  pydantic is not part of this
repository, so the validation step is modelled from the spec. -/

/-- A JSON-shaped value, enough to describe create/replace request bodies. -/
inductive JVal where
  | jnull : JVal
  | jstr : String → JVal
  | jnum : Int → JVal
  | jarr : List JVal → JVal

/-- A raw create/replace request body: each field of the `Photo` model is
either absent or bound to a JSON value. -/
structure RawInput where
  title : Option JVal
  description : Option JVal
  url : Option JVal
  tags : Option JVal

/-- Validation failure taxonomy from the spec: required-field-missing or
wrong-type, with the offending field's name. -/
inductive ValidationError where
  | requiredMissing : String → ValidationError
  | wrongType : String → ValidationError
deriving DecidableEq, Repr

/-- Reads a JSON array of strings, failing on any non-string element. -/
def asStringList (field : String) : List JVal → Except ValidationError (List String)
  | [] => .ok []
  | JVal.jstr s :: rest =>
    match asStringList field rest with
    | .ok xs => .ok (s :: xs)
    | .error e => .error e
  | _ :: _ => .error (ValidationError.wrongType field)

/-- Modelled from the spec: the validation the schema layer (pydantic, not
under `src/`) performs on a create/replace body against the `Photo` model —
"validates required fields present and of correct type; fails with
ValidationError otherwise"; defaults `description` to absent and `tags` to
the empty sequence. -/
def validatePhoto (raw : RawInput) : Except ValidationError PhotoIn := do
  let title ← match raw.title with
    | none => .error (ValidationError.requiredMissing "title")
    | some (JVal.jstr s) => .ok s
    | some _ => .error (ValidationError.wrongType "title")
  let url ← match raw.url with
    | none => .error (ValidationError.requiredMissing "url")
    | some (JVal.jstr s) => .ok s
    | some _ => .error (ValidationError.wrongType "url")
  let description ← match raw.description with
    | none => .ok none
    | some JVal.jnull => .ok none
    | some (JVal.jstr s) => .ok (some s)
    | some _ => .error (ValidationError.wrongType "description")
  let tags ← match raw.tags with
    | none => .ok (some [])
    | some JVal.jnull => .ok none
    | some (JVal.jarr xs) => (asStringList "tags" xs).map some
    | some _ => .error (ValidationError.wrongType "tags")
  .ok { title := title, description := description, url := url, tags := tags }

/-- Modelled from the spec: the framework (not under `src/`) renders a raised
`HTTPException` as the JSON body `{"detail": <detail>}`. -/
def errorBody (e : HTTPException) : List (String × String) :=
  [("detail", e.detail)]

/-! ### Operation-level semantics

One step per incoming request.  A request that fails (validation error or
404) leaves the registry state as the handler left it — for the embedded
handlers that is provably the original state. -/

/-- One incoming request against the service. -/
inductive Op where
  | createOp : RawInput → String → Op
  | replaceOp : Int → RawInput → Op
  | getOp : Int → Op
  | deleteOp : Int → Op
  | listOp : Option String → Op
  | healthOp : Op

/-- The registry state after serving one request. -/
def step (st : RegState) : Op → RegState
  | Op.createOp raw now =>
    match validatePhoto raw with
    | .error _ => st
    | .ok photo => (create_photo photo now st).2
  | Op.replaceOp photo_id raw =>
    match validatePhoto raw with
    | .error _ => st
    | .ok photo => { st with photos_db := (update_photo photo_id photo st.photos_db).2 }
  | Op.deleteOp photo_id =>
    { st with photos_db := (delete_photo photo_id st.photos_db).2 }
  | Op.getOp _ => st
  | Op.listOp _ => st
  | Op.healthOp => st

/-- The registry state after serving a sequence of requests from a given
state. -/
def runFrom (st : RegState) : List Op → RegState
  | [] => st
  | op :: rest => runFrom (step st op) rest

/-- The registry state reached from process start by a request sequence. -/
def runOps (ops : List Op) : RegState := runFrom initState ops

/-- Is the request a create whose body passes validation? -/
def isSuccessfulCreate : Op → Bool
  | Op.createOp raw _ =>
    match validatePhoto raw with
    | .ok _ => true
    | .error _ => false
  | _ => false

/-- How many requests in the sequence are successful creates. -/
def numCreates (ops : List Op) : Nat :=
  (ops.filter isSuccessfulCreate).length

/-- The ids returned by the successful creates of a request sequence, in
order, starting from a given state. -/
def createdIdsFrom (st : RegState) : List Op → List Int
  | [] => []
  | op :: rest =>
    match op with
    | Op.createOp raw now =>
      match validatePhoto raw with
      | .ok photo => (create_photo photo now st).1.id :: createdIdsFrom (step st op) rest
      | .error _ => createdIdsFrom (step st op) rest
    | _ => createdIdsFrom (step st op) rest

/-- The ids returned by the successful creates of a request sequence run from
process start. -/
def createdIds (ops : List Op) : List Int := createdIdsFrom initState ops

/-- The record `update_photo` writes over the matched entry: fresh
`title`/`description`/`url`/`tags` from the body (with the same `or []`
defaulting as create), the path id, and the matched entry's `created_at`. -/
def replPhoto (photo_id : Int) (photo : PhotoIn) (created_at : String) : Photo :=
  { id := photo_id
    title := photo.title
    description := photo.description
    url := photo.url
    tags := pyTagsOr photo.tags
    created_at := created_at }

/-! ### Sample values used in concrete witnesses -/

/-- A sample stored record. -/
def samplePhoto : Photo :=
  { id := 1, title := "sunset", description := none, url := "u1",
    tags := ["nature"], created_at := "T0" }

/-- A sample validated request body. -/
def sampleIn : PhotoIn :=
  { title := "sunset", description := none, url := "u1", tags := some ["nature"] }

/-- A sample raw request body carrying only `title` and `url`. -/
def sampleRaw : RawInput :=
  { title := some (JVal.jstr "sunset"), description := none,
    url := some (JVal.jstr "u1"), tags := none }

/-- A raw request body missing the required `title`. -/
def badRaw : RawInput :=
  { title := none, description := none, url := some (JVal.jstr "u1"), tags := none }

/-- The record created by serving `sampleRaw` at clock `"T"` from the initial
state. -/
def createdSample : Photo :=
  { id := 1, title := "sunset", description := none, url := "u1",
    tags := [], created_at := "T" }

/-- The body returned by deleting `createdSample`. -/
def sampleDeleteResp : DeleteResponse :=
  { message := "Photo 1 deleted successfully", deleted_photo := createdSample }

/-! ### Helper lemmas -/

theorem runFrom_append (st : RegState) (l₁ l₂ : List Op) :
    runFrom st (l₁ ++ l₂) = runFrom (runFrom st l₁) l₂ := by
  induction l₁ generalizing st with
  | nil => rfl
  | cons op rest ih => simp [runFrom, ih]

theorem step_counter_le (st : RegState) (op : Op) :
    st.photo_id_counter ≤ (step st op).photo_id_counter := by
  cases op with
  | createOp raw now =>
    simp only [step]
    cases validatePhoto raw with
    | error e => simp
    | ok photo => simp [create_photo]
  | replaceOp photo_id raw =>
    simp only [step]
    cases validatePhoto raw with
    | error e => simp
    | ok photo => simp
  | deleteOp photo_id => simp [step]
  | getOp photo_id => simp [step]
  | listOp tag => simp [step]
  | healthOp => simp [step]

theorem runFrom_counter_le (st : RegState) (ops : List Op) :
    st.photo_id_counter ≤ (runFrom st ops).photo_id_counter := by
  induction ops generalizing st with
  | nil => exact le_refl _
  | cons op rest ih => exact le_trans (step_counter_le st op) (ih (step st op))

theorem step_counter_not_create (st : RegState) (op : Op)
    (h : isSuccessfulCreate op = false) :
    (step st op).photo_id_counter = st.photo_id_counter := by
  cases op with
  | createOp raw now =>
    simp only [isSuccessfulCreate] at h
    simp only [step]
    cases hv : validatePhoto raw with
    | error e => rfl
    | ok photo => rw [hv] at h; simp at h
  | replaceOp photo_id raw =>
    simp only [step]
    cases validatePhoto raw with
    | error e => rfl
    | ok photo => rfl
  | deleteOp photo_id => rfl
  | getOp photo_id => rfl
  | listOp tag => rfl
  | healthOp => rfl

theorem step_counter_create (st : RegState) (raw : RawInput) (now : String)
    (photo : PhotoIn) (hv : validatePhoto raw = .ok photo) :
    (step st (Op.createOp raw now)).photo_id_counter = st.photo_id_counter + 1 := by
  simp [step, hv, create_photo]

theorem range_map_succ_shift (c : Int) (k : Nat) :
    (List.range (k + 1)).map (fun n : Nat => c + (n : Int)) =
      c :: (List.range k).map (fun n : Nat => (c + 1) + (n : Int)) := by
  rw [List.range_succ_eq_map, List.map_cons, List.map_map]
  have hf : ((fun n : Nat => c + (n : Int)) ∘ Nat.succ) = fun n : Nat => (c + 1) + (n : Int) := by
    funext n
    simp only [Function.comp_apply, Nat.cast_succ]
    ring
  rw [hf]
  simp

theorem createdIdsFrom_formula (ops : List Op) (st : RegState) :
    createdIdsFrom st ops =
      (List.range (numCreates ops)).map (fun n : Nat => st.photo_id_counter + (n : Int)) := by
  induction ops generalizing st with
  | nil => rfl
  | cons op rest ih =>
    cases op with
    | createOp raw now =>
      cases hv : validatePhoto raw with
      | error e =>
        have hns : isSuccessfulCreate (Op.createOp raw now) = false := by
          simp [isSuccessfulCreate, hv]
        have hc : numCreates (Op.createOp raw now :: rest) = numCreates rest := by
          simp [numCreates, List.filter_cons, hns]
        simp only [createdIdsFrom, hv]
        rw [ih, step_counter_not_create st _ hns, hc]
      | ok photo =>
        have hs : isSuccessfulCreate (Op.createOp raw now) = true := by
          simp [isSuccessfulCreate, hv]
        have hc : numCreates (Op.createOp raw now :: rest) = numCreates rest + 1 := by
          simp [numCreates, List.filter_cons, hs]
        simp only [createdIdsFrom, hv]
        rw [ih, hc, step_counter_create st raw now photo hv, range_map_succ_shift]
        simp [create_photo]
    | replaceOp photo_id raw =>
      simp only [createdIdsFrom]
      rw [ih, step_counter_not_create st (Op.replaceOp photo_id raw) rfl]
      simp [numCreates, List.filter_cons, isSuccessfulCreate]
    | deleteOp photo_id =>
      simp only [createdIdsFrom]
      rw [ih, step_counter_not_create st (Op.deleteOp photo_id) rfl]
      simp [numCreates, List.filter_cons, isSuccessfulCreate]
    | getOp photo_id =>
      simp only [createdIdsFrom]
      rw [ih, step_counter_not_create st (Op.getOp photo_id) rfl]
      simp [numCreates, List.filter_cons, isSuccessfulCreate]
    | listOp tag =>
      simp only [createdIdsFrom]
      rw [ih, step_counter_not_create st (Op.listOp tag) rfl]
      simp [numCreates, List.filter_cons, isSuccessfulCreate]
    | healthOp =>
      simp only [createdIdsFrom]
      rw [ih, step_counter_not_create st Op.healthOp rfl]
      simp [numCreates, List.filter_cons, isSuccessfulCreate]

theorem update_photo_not_found (photo_id : Int) (photo : PhotoIn) (db : List Photo)
    (h : ∀ p ∈ db, p.id ≠ photo_id) :
    update_photo photo_id photo db = (.error (notFoundExc photo_id), db) := by
  induction db with
  | nil => rfl
  | cons p rest ih =>
    have hp : ¬ p.id = photo_id := h p (List.mem_cons_self p rest)
    simp only [update_photo, if_neg hp]
    rw [ih (fun q hq => h q (List.mem_cons_of_mem p hq))]

theorem update_photo_error (photo_id : Int) (photo : PhotoIn) (db : List Photo)
    (e : HTTPException) (h : (update_photo photo_id photo db).1 = .error e) :
    (update_photo photo_id photo db).2 = db := by
  induction db with
  | nil => rfl
  | cons p rest ih =>
    by_cases hp : p.id = photo_id
    · simp only [update_photo, if_pos hp] at h
      exact Except.noConfusion h
    · simp only [update_photo, if_neg hp] at h ⊢
      rw [ih h]

theorem update_photo_found (photo_id : Int) (photo : PhotoIn) (l₁ l₂ : List Photo)
    (p : Photo) (hp : p.id = photo_id) (h : ∀ q ∈ l₁, q.id ≠ photo_id) :
    update_photo photo_id photo (l₁ ++ p :: l₂) =
      (.ok (replPhoto photo_id photo p.created_at),
       l₁ ++ replPhoto photo_id photo p.created_at :: l₂) := by
  induction l₁ with
  | nil => simp [update_photo, hp, replPhoto]
  | cons q rest ih =>
    have hq : ¬ q.id = photo_id := h q (List.mem_cons_self q rest)
    have ihh := ih (fun r hr => h r (List.mem_cons_of_mem q hr))
    simp only [List.cons_append, update_photo, if_neg hq, List.append_eq, ihh]

theorem update_photo_map_id (photo_id : Int) (photo : PhotoIn) (db : List Photo) :
    ((update_photo photo_id photo db).2).map Photo.id = db.map Photo.id := by
  induction db with
  | nil => rfl
  | cons p rest ih =>
    by_cases hp : p.id = photo_id
    · simp [update_photo, if_pos hp, replPhoto, hp]
    · simp only [update_photo, if_neg hp, List.map_cons]
      rw [ih]

theorem delete_photo_not_found (photo_id : Int) (db : List Photo)
    (h : ∀ p ∈ db, p.id ≠ photo_id) :
    delete_photo photo_id db = (.error (notFoundExc photo_id), db) := by
  induction db with
  | nil => rfl
  | cons p rest ih =>
    have hp : ¬ p.id = photo_id := h p (List.mem_cons_self p rest)
    simp only [delete_photo, if_neg hp]
    rw [ih (fun q hq => h q (List.mem_cons_of_mem p hq))]

theorem delete_photo_error (photo_id : Int) (db : List Photo)
    (e : HTTPException) (h : (delete_photo photo_id db).1 = .error e) :
    (delete_photo photo_id db).2 = db := by
  induction db with
  | nil => rfl
  | cons p rest ih =>
    by_cases hp : p.id = photo_id
    · simp only [delete_photo, if_pos hp] at h
      exact Except.noConfusion h
    · simp only [delete_photo, if_neg hp] at h ⊢
      rw [ih h]

theorem delete_photo_found (photo_id : Int) (l₁ l₂ : List Photo)
    (p : Photo) (hp : p.id = photo_id) (h : ∀ q ∈ l₁, q.id ≠ photo_id) :
    delete_photo photo_id (l₁ ++ p :: l₂) =
      (.ok { message := "Photo " ++ toString photo_id ++ " deleted successfully"
             deleted_photo := p },
       l₁ ++ l₂) := by
  induction l₁ with
  | nil => simp [delete_photo, hp]
  | cons q rest ih =>
    have hq : ¬ q.id = photo_id := h q (List.mem_cons_self q rest)
    have ihh := ih (fun r hr => h r (List.mem_cons_of_mem q hr))
    simp only [List.cons_append, delete_photo, if_neg hq, List.append_eq, ihh]

theorem delete_photo_ok_decomp (photo_id : Int) (db db' : List Photo)
    (r : DeleteResponse) (h : delete_photo photo_id db = (.ok r, db')) :
    ∃ l₁ l₂, db = l₁ ++ r.deleted_photo :: l₂ ∧ db' = l₁ ++ l₂ ∧
      (∀ q ∈ l₁, q.id ≠ photo_id) ∧ r.deleted_photo.id = photo_id := by
  induction db generalizing db' with
  | nil => simp [delete_photo] at h
  | cons p rest ih =>
    by_cases hp : p.id = photo_id
    · simp only [delete_photo, if_pos hp, Prod.mk.injEq] at h
      obtain ⟨h1, h2⟩ := h
      injection h1 with h1
      refine ⟨[], rest, ?_, ?_, ?_, ?_⟩
      · rw [← h1]; rfl
      · rw [← h2]; rfl
      · intro q hq; simp at hq
      · rw [← h1]; exact hp
    · simp only [delete_photo, if_neg hp, Prod.mk.injEq] at h
      obtain ⟨h1, h2⟩ := h
      obtain ⟨l₁, l₂, hdb, hdb', hl₁, hid⟩ :=
        ih ((delete_photo photo_id rest).2) (by rw [← h1])
      refine ⟨p :: l₁, l₂, ?_, ?_, ?_, hid⟩
      · rw [List.cons_append, ← hdb]
      · rw [← h2, hdb']; rfl
      · intro q hq
        rcases List.mem_cons.mp hq with hq | hq
        · rw [hq]; exact hp
        · exact hl₁ q hq

theorem delete_photo_sublist (photo_id : Int) (db : List Photo) :
    (delete_photo photo_id db).2.Sublist db := by
  induction db with
  | nil => simp [delete_photo]
  | cons p rest ih =>
    by_cases hp : p.id = photo_id
    · simp only [delete_photo, if_pos hp]
      exact List.sublist_cons_self p rest
    · simp only [delete_photo, if_neg hp]
      exact List.Sublist.cons₂ p ih

theorem get_photo_not_found (photo_id : Int) (db : List Photo)
    (h : ∀ p ∈ db, p.id ≠ photo_id) :
    get_photo photo_id db = .error (notFoundExc photo_id) := by
  induction db with
  | nil => rfl
  | cons p rest ih =>
    have hp : ¬ p.id = photo_id := h p (List.mem_cons_self p rest)
    simp only [get_photo, if_neg hp]
    exact ih (fun q hq => h q (List.mem_cons_of_mem p hq))

theorem get_photo_append_found (photo_id : Int) (l₁ l₂ : List Photo) (p : Photo)
    (hp : p.id = photo_id) (h : ∀ q ∈ l₁, q.id ≠ photo_id) :
    get_photo photo_id (l₁ ++ p :: l₂) = .ok p := by
  induction l₁ with
  | nil => simp [get_photo, hp]
  | cons q rest ih =>
    have hq : ¬ q.id = photo_id := h q (List.mem_cons_self q rest)
    simp only [List.cons_append, get_photo, if_neg hq]
    exact ih (fun r hr => h r (List.mem_cons_of_mem q hr))

/-! ### The reachability invariant -/

/-- Every stored id is below the counter, and stored ids are pairwise
distinct. -/
def Inv (st : RegState) : Prop :=
  (∀ p ∈ st.photos_db, p.id < st.photo_id_counter) ∧
    (st.photos_db.map Photo.id).Nodup

theorem inv_init : Inv initState := by
  constructor
  · intro p hp; simp [initState] at hp
  · simp [initState]

theorem inv_create (st : RegState) (photo : PhotoIn) (now : String) (h : Inv st) :
    Inv (create_photo photo now st).2 := by
  obtain ⟨hlt, hnd⟩ := h
  constructor
  · intro p hp
    simp only [create_photo, List.mem_append, List.mem_singleton] at hp
    rcases hp with hp | hp
    · exact lt_trans (hlt p hp) (by simp [create_photo])
    · simp [create_photo, hp]
  · have hids : ((create_photo photo now st).2.photos_db).map Photo.id
        = st.photos_db.map Photo.id ++ [st.photo_id_counter] := by
      simp [create_photo]
    rw [hids, List.nodup_append]
    refine ⟨hnd, List.nodup_singleton _, ?_⟩
    intro a ha hb
    simp only [List.mem_singleton] at hb
    obtain ⟨p, hp, rfl⟩ := List.mem_map.mp ha
    exact absurd hb (ne_of_lt (hlt p hp))

theorem inv_step (st : RegState) (op : Op) (h : Inv st) : Inv (step st op) := by
  obtain ⟨hlt, hnd⟩ := h
  cases op with
  | createOp raw now =>
    simp only [step]
    cases validatePhoto raw with
    | error e => exact ⟨hlt, hnd⟩
    | ok photo => exact inv_create st photo now ⟨hlt, hnd⟩
  | replaceOp photo_id raw =>
    simp only [step]
    cases validatePhoto raw with
    | error e => exact ⟨hlt, hnd⟩
    | ok photo =>
      constructor
      · intro p hp
        have hmem : p.id ∈ ((update_photo photo_id photo st.photos_db).2).map Photo.id :=
          List.mem_map_of_mem Photo.id hp
        rw [update_photo_map_id] at hmem
        obtain ⟨q, hq, hqe⟩ := List.mem_map.mp hmem
        exact hqe ▸ hlt q hq
      · show ((update_photo photo_id photo st.photos_db).2.map Photo.id).Nodup
        rw [update_photo_map_id]
        exact hnd
  | deleteOp photo_id =>
    constructor
    · intro p hp
      exact hlt p ((delete_photo_sublist photo_id st.photos_db).mem hp)
    · exact List.Nodup.sublist (List.Sublist.map Photo.id
        (delete_photo_sublist photo_id st.photos_db)) hnd
  | getOp photo_id => exact ⟨hlt, hnd⟩
  | listOp tag => exact ⟨hlt, hnd⟩
  | healthOp => exact ⟨hlt, hnd⟩

theorem inv_runFrom (st : RegState) (ops : List Op) (h : Inv st) :
    Inv (runFrom st ops) := by
  induction ops generalizing st with
  | nil => exact h
  | cons op rest ih => exact ih (step st op) (inv_step st op h)

theorem inv_runOps (ops : List Op) : Inv (runOps ops) :=
  inv_runFrom initState ops inv_init

theorem get_after_create (st : RegState) (photo : PhotoIn) (now : String) (h : Inv st) :
    get_photo (create_photo photo now st).1.id (create_photo photo now st).2.photos_db
      = .ok (create_photo photo now st).1 := by
  obtain ⟨hlt, _⟩ := h
  have hdb : (create_photo photo now st).2.photos_db
      = st.photos_db ++ (create_photo photo now st).1 :: [] := rfl
  rw [hdb]
  refine get_photo_append_found _ st.photos_db [] _ rfl ?_
  intro q hq
  have hid : (create_photo photo now st).1.id = st.photo_id_counter := rfl
  rw [hid]
  exact ne_of_lt (hlt q hq)

/-! ### The claims -/

/-- C1: across any request sequence, the ids returned by successful creates
are the consecutive integers 1, 2, 3, ...; the counter starts at 1, grows by
exactly 1 on each successful create and only then, and never decreases (in
particular deletes leave it unchanged). -/
theorem claim_c1_ids_consecutive :
    (∀ ops : List Op,
       createdIds ops = (List.range (numCreates ops)).map (fun n : Nat => 1 + (n : Int))) ∧
    (∀ (st : RegState) (op : Op),
       st.photo_id_counter ≤ (step st op).photo_id_counter) ∧
    (∀ (st : RegState) (op : Op), isSuccessfulCreate op = false →
       (step st op).photo_id_counter = st.photo_id_counter) ∧
    (∀ (st : RegState) (raw : RawInput) (now : String) (photo : PhotoIn),
       validatePhoto raw = .ok photo →
       (step st (Op.createOp raw now)).photo_id_counter = st.photo_id_counter + 1) := by
  refine ⟨?_, step_counter_le, step_counter_not_create, ?_⟩
  · intro ops
    have h := createdIdsFrom_formula ops initState
    simpa [createdIds, initState] using h
  · intro st raw now photo hv
    exact step_counter_create st raw now photo hv

/-- Witness for C1: a delete leaves the counter at 1, and a valid create
moves it from 1 to 2. -/
theorem claim_c1_witness :
    (step initState (Op.deleteOp 1)).photo_id_counter = initState.photo_id_counter ∧
    (step initState (Op.createOp sampleRaw "T")).photo_id_counter
      = initState.photo_id_counter + 1 :=
  ⟨claim_c1_ids_consecutive.2.2.1 initState (Op.deleteOp 1) rfl,
   claim_c1_ids_consecutive.2.2.2 initState sampleRaw "T"
     { title := "sunset", description := none, url := "u1", tags := some [] } rfl⟩

/-- C2: failures are atomic.  A 404 on replace or delete leaves the database
exactly as it was; a validation error on create or replace leaves the whole
state unchanged; get never mutates; in particular replace on the absent id
999 leaves a subsequent unfiltered list unchanged. -/
theorem claim_c2_failure_atomicity :
    (∀ (photo_id : Int) (photo : PhotoIn) (db : List Photo) (e : HTTPException),
       (update_photo photo_id photo db).1 = .error e →
       (update_photo photo_id photo db).2 = db) ∧
    (∀ (photo_id : Int) (db : List Photo) (e : HTTPException),
       (delete_photo photo_id db).1 = .error e →
       (delete_photo photo_id db).2 = db) ∧
    (∀ (st : RegState) (raw : RawInput) (now : String) (e : ValidationError),
       validatePhoto raw = .error e → step st (Op.createOp raw now) = st) ∧
    (∀ (st : RegState) (photo_id : Int) (raw : RawInput) (e : ValidationError),
       validatePhoto raw = .error e → step st (Op.replaceOp photo_id raw) = st) ∧
    (∀ (st : RegState) (photo_id : Int) (e : HTTPException),
       (delete_photo photo_id st.photos_db).1 = .error e →
       step st (Op.deleteOp photo_id) = st) ∧
    (∀ (st : RegState) (photo_id : Int) (raw : RawInput) (photo : PhotoIn) (e : HTTPException),
       validatePhoto raw = .ok photo →
       (update_photo photo_id photo st.photos_db).1 = .error e →
       step st (Op.replaceOp photo_id raw) = st) ∧
    (∀ (st : RegState) (photo_id : Int), step st (Op.getOp photo_id) = st) ∧
    (∀ (st : RegState) (raw : RawInput),
       (∀ p ∈ st.photos_db, p.id ≠ 999) →
       list_photos none (step st (Op.replaceOp 999 raw)).photos_db
         = list_photos none st.photos_db) := by
  refine ⟨update_photo_error, delete_photo_error, ?_, ?_, ?_, ?_, fun st pid => rfl, ?_⟩
  · intro st raw now e hv
    simp [step, hv]
  · intro st photo_id raw e hv
    simp [step, hv]
  · intro st photo_id e h
    simp only [step]
    rw [delete_photo_error photo_id st.photos_db e h]
  · intro st photo_id raw photo e hv h
    simp only [step, hv]
    rw [update_photo_error photo_id photo st.photos_db e h]
  · intro st raw h999
    cases hv : validatePhoto raw with
    | error e => simp [step, hv]
    | ok photo =>
      have hupd := update_photo_not_found 999 photo st.photos_db h999
      simp [step, hv, list_photos, hupd]

/-- Witness for C2: replace on the empty database mutates nothing, and a
create whose body lacks `title` leaves the initial state unchanged. -/
theorem claim_c2_witness :
    (update_photo 999 sampleIn []).2 = ([] : List Photo) ∧
    step initState (Op.createOp badRaw "T") = initState :=
  ⟨claim_c2_failure_atomicity.1 999 sampleIn [] (notFoundExc 999) rfl,
   claim_c2_failure_atomicity.2.2.1 initState badRaw "T"
     (ValidationError.requiredMissing "title") rfl⟩

/-- C3: replace on a present id overwrites exactly the matched record in
place with the new `title`/`description`/`url`/`tags` (tags defaulted by the
same `or []` rule as create), keeps its id and `created_at`, leaves every
other record where it was, and never changes the counter. -/
theorem claim_c3_replace_semantics :
    (∀ (l₁ l₂ : List Photo) (p : Photo) (photo_id : Int) (photo : PhotoIn),
       p.id = photo_id → (∀ q ∈ l₁, q.id ≠ photo_id) →
       update_photo photo_id photo (l₁ ++ p :: l₂) =
         (.ok (replPhoto photo_id photo p.created_at),
          l₁ ++ replPhoto photo_id photo p.created_at :: l₂)) ∧
    (∀ (photo_id : Int) (photo : PhotoIn) (created_at : String),
       (replPhoto photo_id photo created_at).id = photo_id ∧
       (replPhoto photo_id photo created_at).title = photo.title ∧
       (replPhoto photo_id photo created_at).description = photo.description ∧
       (replPhoto photo_id photo created_at).url = photo.url ∧
       (replPhoto photo_id photo created_at).tags = pyTagsOr photo.tags ∧
       (replPhoto photo_id photo created_at).created_at = created_at) ∧
    (∀ (st : RegState) (photo_id : Int) (raw : RawInput),
       (step st (Op.replaceOp photo_id raw)).photo_id_counter = st.photo_id_counter) ∧
    (∀ (photo : PhotoIn) (now : String) (st : RegState),
       (create_photo photo now st).1.tags = pyTagsOr photo.tags) := by
  refine ⟨?_, ?_, ?_, fun photo now st => rfl⟩
  · intro l₁ l₂ p photo_id photo hp h
    exact update_photo_found photo_id photo l₁ l₂ p hp h
  · intro photo_id photo created_at
    exact ⟨rfl, rfl, rfl, rfl, rfl, rfl⟩
  · intro st photo_id raw
    simp only [step]
    cases validatePhoto raw with
    | error e => rfl
    | ok photo => rfl

/-- Witness for C3: replacing the single record with id 1. -/
theorem claim_c3_witness :
    update_photo 1 sampleIn ([] ++ samplePhoto :: []) =
      (.ok (replPhoto 1 sampleIn samplePhoto.created_at),
       [] ++ replPhoto 1 sampleIn samplePhoto.created_at :: []) :=
  claim_c3_replace_semantics.1 [] [] samplePhoto 1 sampleIn rfl
    (fun q hq => absurd hq (List.not_mem_nil q))

/-- Counterexample to C4 as stated: with the empty string as the tag, the
filter is skipped (the argument is falsy), so a record whose tags do not
contain the empty string is still returned. -/
theorem claim_c4_counterexample :
    list_photos (some "") [samplePhoto] = [samplePhoto] ∧
    samplePhoto.tags.contains "" = false :=
  ⟨rfl, rfl⟩

/-- C4 (amended): for every NON-EMPTY tag string, list returns exactly the
records whose tags contain it, in their original order (and the empty
sequence, not an error, when nothing matches). -/
theorem claim_c4_list_tag_filter (t : String) (db : List Photo) (h : t ≠ "") :
    list_photos (some t) db = db.filter (fun p => p.tags.contains t) := by
  simp [list_photos, h]

/-- Witness for C4: filtering one record by a tag it carries. -/
theorem claim_c4_witness :
    list_photos (some "nature") [samplePhoto]
      = [samplePhoto].filter (fun p => p.tags.contains "nature") :=
  claim_c4_list_tag_filter "nature" [samplePhoto] (by decide)

/-- C5: in every reachable state, a create followed by a get of the returned
id succeeds and returns exactly the record create returned. -/
theorem claim_c5_create_then_get (ops : List Op) (photo : PhotoIn) (now : String) :
    get_photo (create_photo photo now (runOps ops)).1.id
        (create_photo photo now (runOps ops)).2.photos_db
      = .ok (create_photo photo now (runOps ops)).1 :=
  get_after_create (runOps ops) photo now (inv_runOps ops)

/-- C6: in every reachable state, if delete succeeds on an id then a
subsequent get of that id fails with 404, and the delete removed exactly the
returned record, leaving the rest in their previous relative order. -/
theorem claim_c6_delete_then_get (ops : List Op) (photo_id : Int)
    (r : DeleteResponse) (db' : List Photo)
    (h : delete_photo photo_id (runOps ops).photos_db = (.ok r, db')) :
    get_photo photo_id db' = .error (notFoundExc photo_id) ∧
    ∃ l₁ l₂, (runOps ops).photos_db = l₁ ++ r.deleted_photo :: l₂ ∧
      db' = l₁ ++ l₂ ∧ r.deleted_photo.id = photo_id := by
  obtain ⟨l₁, l₂, hdb, hdb', hl₁, hid⟩ := delete_photo_ok_decomp photo_id _ db' r h
  refine ⟨?_, l₁, l₂, hdb, hdb', hid⟩
  obtain ⟨_, hnd⟩ := inv_runOps ops
  rw [hdb, List.map_append, List.map_cons] at hnd
  have hx : r.deleted_photo.id ∉ l₂.map Photo.id :=
    (List.nodup_cons.mp (List.nodup_append.mp hnd).2.1).1
  subst hdb'
  apply get_photo_not_found
  intro q hq
  rcases List.mem_append.mp hq with hq | hq
  · exact hl₁ q hq
  · rw [← hid]
    intro hqe
    exact hx (hqe ▸ List.mem_map_of_mem Photo.id hq)

/-- Witness for C6: create one photo from the initial state, delete it, and
get 1 fails with 404. -/
theorem claim_c6_witness :
    get_photo 1 [] = .error (notFoundExc 1) ∧
    ∃ l₁ l₂, (runOps [Op.createOp sampleRaw "T"]).photos_db
        = l₁ ++ sampleDeleteResp.deleted_photo :: l₂ ∧
      ([] : List Photo) = l₁ ++ l₂ ∧ sampleDeleteResp.deleted_photo.id = 1 :=
  claim_c6_delete_then_get [Op.createOp sampleRaw "T"] 1 sampleDeleteResp [] rfl

/-- C7: every reachable state stores at most one record per id, and an id
whose delete succeeded is never returned by a later create in the same
process. -/
theorem claim_c7_unique_ids_no_reuse :
    (∀ ops : List Op, (((runOps ops).photos_db).map Photo.id).Nodup) ∧
    (∀ (ops₁ ops₂ : List Op) (d : Int) (r : DeleteResponse) (db' : List Photo)
       (photo : PhotoIn) (now : String),
       delete_photo d (runOps ops₁).photos_db = (.ok r, db') →
       (create_photo photo now (runOps (ops₁ ++ Op.deleteOp d :: ops₂))).1.id ≠ d) := by
  constructor
  · intro ops
    exact (inv_runOps ops).2
  · intro ops₁ ops₂ d r db' photo now h
    obtain ⟨l₁, l₂, hdb, _, _, hid⟩ := delete_photo_ok_decomp d _ db' r h
    have hmem : r.deleted_photo ∈ (runOps ops₁).photos_db := by
      rw [hdb]
      exact List.mem_append_right l₁ (List.mem_cons_self _ _)
    have hd_lt : d < (runOps ops₁).photo_id_counter :=
      hid ▸ (inv_runOps ops₁).1 _ hmem
    have hrun : runOps (ops₁ ++ Op.deleteOp d :: ops₂)
        = runFrom (step (runOps ops₁) (Op.deleteOp d)) ops₂ := by
      rw [runOps, runFrom_append]
      rfl
    have hcnt : (runOps ops₁).photo_id_counter
        ≤ (runOps (ops₁ ++ Op.deleteOp d :: ops₂)).photo_id_counter := by
      rw [hrun]
      exact le_trans (step_counter_le _ _) (runFrom_counter_le _ _)
    have hcre : (create_photo photo now (runOps (ops₁ ++ Op.deleteOp d :: ops₂))).1.id
        = (runOps (ops₁ ++ Op.deleteOp d :: ops₂)).photo_id_counter := rfl
    rw [hcre]
    exact ne_of_gt (lt_of_lt_of_le hd_lt hcnt)

/-- Witness for C7: after creating photo 1 and deleting it, the next create
does not return id 1. -/
theorem claim_c7_witness :
    (create_photo sampleIn "T2"
        (runOps ([Op.createOp sampleRaw "T"] ++ Op.deleteOp 1 :: []))).1.id ≠ 1 :=
  claim_c7_unique_ids_no_reuse.2 [Op.createOp sampleRaw "T"] [] 1 sampleDeleteResp []
    sampleIn "T2" rfl

/-- C8: a body carrying only `title` and `url` validates with the defaults
`description = None` and `tags = []`; the record create returns carries those
defaults, it is exactly the record appended to the collection, and (in any
reachable state) it is what a subsequent get of the new id returns. -/
theorem claim_c8_defaults (t u now : String) (st : RegState) :
    validatePhoto { title := some (JVal.jstr t), description := none,
                    url := some (JVal.jstr u), tags := none }
      = .ok { title := t, description := none, url := u, tags := some [] } ∧
    (create_photo { title := t, description := none, url := u, tags := some [] } now st).1.description
      = none ∧
    (create_photo { title := t, description := none, url := u, tags := some [] } now st).1.tags
      = [] ∧
    (create_photo { title := t, description := none, url := u, tags := some [] } now st).2.photos_db
      = st.photos_db
        ++ [(create_photo { title := t, description := none, url := u, tags := some [] } now st).1] ∧
    (∀ ops : List Op,
       get_photo
           (create_photo { title := t, description := none, url := u, tags := some [] } now
             (runOps ops)).1.id
           (create_photo { title := t, description := none, url := u, tags := some [] } now
             (runOps ops)).2.photos_db
         = .ok (create_photo { title := t, description := none, url := u, tags := some [] } now
             (runOps ops)).1) :=
  ⟨rfl, rfl, rfl, rfl, fun ops => get_after_create (runOps ops) _ now (inv_runOps ops)⟩

/-- C9: on an absent id, get, replace and delete all fail with the 404
exception whose rendered payload is exactly
`("detail", "Photo with id <id> not found")`, the id interpolated. -/
theorem claim_c9_not_found (photo_id : Int) (db : List Photo) (photo : PhotoIn)
    (h : ∀ p ∈ db, p.id ≠ photo_id) :
    get_photo photo_id db = .error (notFoundExc photo_id) ∧
    update_photo photo_id photo db = (.error (notFoundExc photo_id), db) ∧
    delete_photo photo_id db = (.error (notFoundExc photo_id), db) ∧
    (notFoundExc photo_id).status_code = 404 ∧
    errorBody (notFoundExc photo_id)
      = [("detail", "Photo with id " ++ toString photo_id ++ " not found")] :=
  ⟨get_photo_not_found photo_id db h, update_photo_not_found photo_id photo db h,
   delete_photo_not_found photo_id db h, rfl, rfl⟩

/-- Witness for C9: id 999 against a one-record database. -/
theorem claim_c9_witness :
    get_photo 999 [samplePhoto] = .error (notFoundExc 999) ∧
    update_photo 999 sampleIn [samplePhoto] = (.error (notFoundExc 999), [samplePhoto]) ∧
    delete_photo 999 [samplePhoto] = (.error (notFoundExc 999), [samplePhoto]) ∧
    (notFoundExc 999).status_code = 404 ∧
    errorBody (notFoundExc 999)
      = [("detail", "Photo with id " ++ toString (999 : Int) ++ " not found")] :=
  claim_c9_not_found 999 [samplePhoto] sampleIn (by decide)

/-- C10: the empty string is falsy, so list with the empty string as the tag
argument skips the filter and behaves exactly like list with no tag: the
whole database is returned. -/
theorem claim_c10_empty_tag_lists_all (db : List Photo) :
    list_photos (some "") db = db ∧ list_photos none db = db :=
  ⟨rfl, rfl⟩

end PhotoBlog
